import Mathlib

/-!
Shallow embedding of the filter-composition library:
  src/filters.py    — predicate-evaluation backend (test / And / Or / Not / Check)
  src/ad_filters.py — LDAP serialization backend (emit / And / Or / Not / leaves)

Python values that flow through the predicate backend are modelled by the
inductive `Value` (strings, integers, lists).  Python exceptions are modelled
by `Option`: a function that can raise returns `none` where the Python code
would raise, and `some r` where it would return `r`.
-/

namespace Filters

/-- Values a candidate attribute (or a test value) may hold: Python strings,
integers and lists, as exercised by the predicate backend. -/
inductive Value where
  | str : String → Value
  | int : Int → Value
  | list : List Value → Value

mutual
/-- Python equality (`operator.eq`) on `Value`: structural on like types,
`False` across distinct types (as in Python 2 for str/int/list). -/
def valueEq : Value → Value → Bool
  | .str a, .str b => a == b
  | .int a, .int b => a == b
  | .list a, .list b => listValueEq a b
  | _, _ => false

/-- Elementwise Python equality on lists of values. -/
def listValueEq : List Value → List Value → Bool
  | [], [] => true
  | a :: as, b :: bs => valueEq a b && listValueEq as bs
  | _, _ => false
end

/-- Python list membership `v in vs` (uses `==` on elements). -/
def listValueMem : List Value → Value → Bool
  | [], _ => false
  | a :: as, v => valueEq a v || listValueMem as v

/-- Does `hay` start with `needle`? (helper for Python substring membership). -/
def charsStart : List Char → List Char → Bool
  | [], _ => true
  | _ :: _, [] => false
  | a :: as, b :: bs => a == b && charsStart as bs

/-- Does `needle` occur contiguously inside `hay`? (Python `sub in s`). -/
def charsHaveSub (needle : List Char) : List Char → Bool
  | [] => charsStart needle []
  | h :: t => charsStart needle (h :: t) || charsHaveSub needle t

/-- Python 2 cross-type ordering rank: numbers sort before other types, and
other types sort by type name (so list before str). -/
def typeRank : Value → Nat
  | .int _ => 0
  | .list _ => 1
  | .str _ => 2

mutual
/-- Python 2 `cmp` on values: numeric on ints, lexicographic on strings and
lists, and by type rank across distinct types (never raises). -/
def cmpValue : Value → Value → Ordering
  | .int a, .int b => compare a b
  | .str a, .str b => compare a b
  | .list a, .list b => cmpValueList a b
  | a, b => compare (typeRank a) (typeRank b)

/-- Python 2 lexicographic `cmp` on lists of values. -/
def cmpValueList : List Value → List Value → Ordering
  | [], [] => .eq
  | [], _ :: _ => .lt
  | _ :: _, [] => .gt
  | a :: as, b :: bs =>
    match cmpValue a b with
    | .eq => cmpValueList as bs
    | o => o
end

/-- Python `operator.contains container item` (`item in container`):
list membership, substring on strings; `none` models the `TypeError`
raised when the container is an int or the item is not a string while
the container is. -/
def Value.containsVal : Value → Value → Option Bool
  | .list vs, v => some (listValueMem vs v)
  | .str s, .str t => some (charsHaveSub t.data s.data)
  | .str _, _ => none
  | .int _, _ => none

/-- Python `str.lower()` (ASCII lowering), character by character. -/
def strLower (s : String) : String := ⟨s.data.map Char.toLower⟩

/-- Python `.lower()`: defined on strings, `AttributeError` (`none`) on
ints and lists. -/
def Value.lower : Value → Option Value
  | .str s => some (.str (strLower s))
  | .int _ => none
  | .list _ => none

/-- A candidate record: attribute lookup by name; `none` models the
`AttributeError` of `getattr` on a missing attribute. -/
def Candidate := String → Option Value

/-- A comparator: a binary operation that may raise (`none`). -/
def Cmp := Value → Value → Option Bool

/-- `Check.getComparator` from src/filters.py, lines 131-144: the fixed
comparator table, looked up with `dict.get` (so `none` on unknown names). -/
def getComparator (name : String) : Option Cmp :=
  if name = "in" then some (fun a b => Value.containsVal b a)
  else if name = "has" then some (fun a b => Value.containsVal a b)
  else if name = "is" then some (fun a b => some (valueEq a b))
  else if name = "ge" then some (fun a b => some (cmpValue a b != Ordering.lt))
  else if name = "gt" then some (fun a b => some (cmpValue a b == Ordering.gt))
  else if name = "le" then some (fun a b => some (cmpValue a b != Ordering.gt))
  else if name = "lt" then some (fun a b => some (cmpValue a b == Ordering.lt))
  else if name = "ne" then some (fun a b => some (!(valueEq a b)))
  else none

/-- The `Check` leaf: property name, looked-up comparator, comparison value
(src/filters.py, lines 118-129). -/
structure Check where
  property : String
  comparator : Option Cmp
  value : Value

/-- `Check.__init__`: stores the property and value, and resolves the
comparator through `getComparator` — it never raises. -/
def Check.init (property comparator : String) (value : Value) : Check :=
  ⟨property, getComparator comparator, value⟩

/-- Calling a possibly-absent comparator: calling `None` raises
(`TypeError`), modelled as `none`. -/
def applyCmp : Option Cmp → Value → Value → Option Bool
  | none, _, _ => none
  | some f, a, b => f a b

/-- The first `try` block of `Check.test`: lower-case both operands and
apply the comparator; any failure (either `.lower()` raising or the
comparator raising) yields `none`. -/
def lowerStage (c : Option Cmp) (att v : Value) : Option Bool :=
  match att.lower, v.lower with
  | some la, some lv => applyCmp c la lv
  | _, _ => none

/-- `Check.test` (src/filters.py, lines 146-161): attribute lookup (fatal
if absent), then comparator on lowered operands, then comparator on raw
operands, then `False`. -/
def Check.test (chk : Check) (cand : Candidate) : Option Bool :=
  match cand chk.property with
  | none => none
  | some att =>
    match lowerStage chk.comparator att chk.value with
    | some b => some b
    | none =>
      match applyCmp chk.comparator att chk.value with
      | some b => some b
      | none => some false

/-- The filter algebra of src/filters.py: leaves (`EchoMatch`, `Lambda`,
`Check`, `InOffice`) and composites (`And`, `Or`, `Not`). -/
inductive GFilter where
  | echoMatch : Bool → GFilter
  | lam : (Candidate → Bool) → GFilter
  | check : Check → GFilter
  | inOffice : String → GFilter
  | and : List GFilter → GFilter
  | or : List GFilter → GFilter
  | not : GFilter → GFilter

mutual
/-- `test` for every filter kind; `none` models an uncaught exception. -/
def GFilter.test : GFilter → Candidate → Option Bool
  | .echoMatch b, _ => some b
  | .lam f, c => some (f c)
  | .check chk, c => chk.test c
  | .inOffice o, c =>
    match c "office" with
    | none => none
    | some v => some (valueEq v (.str o))
  | .and fs, c => GFilter.testAnd fs c
  | .or fs, c => GFilter.testOr fs c
  | .not f, c =>
    match GFilter.test f c with
    | none => none
    | some b => some (!b)

/-- `And.test` (src/filters.py, lines 197-204): children in order, `False`
at the first failing child, `True` after all pass. -/
def GFilter.testAnd : List GFilter → Candidate → Option Bool
  | [], _ => some true
  | f :: rest, c =>
    match GFilter.test f c with
    | none => none
    | some false => some false
    | some true => GFilter.testAnd rest c

/-- `Or.test` (src/filters.py, lines 211-218): children in order, `True`
at the first passing child, `False` after all fail. -/
def GFilter.testOr : List GFilter → Candidate → Option Bool
  | [], _ => some false
  | f :: rest, c =>
    match GFilter.test f c with
    | none => none
    | some true => some true
    | some false => GFilter.testOr rest c
end

/-- Instrumentation: how many children of a conjunction are visited by the
`And.test` loop before it returns (the `test` of each visited child is invoked). -/
def andEvalCount (fs : List GFilter) (c : Candidate) : Nat :=
  match fs with
  | [] => 0
  | f :: rest =>
    match GFilter.test f c with
    | some true => 1 + andEvalCount rest c
    | _ => 1

/-- Instrumentation: how many children of a disjunction are visited by the
`Or.test` loop before it returns. -/
def orEvalCount (fs : List GFilter) (c : Candidate) : Nat :=
  match fs with
  | [] => 0
  | f :: rest =>
    match GFilter.test f c with
    | some false => 1 + orEvalCount rest c
    | _ => 1

/-- A concrete candidate whose `office` attribute is the string `LA`
(as in the case-insensitive-fallback scenario of the spec). -/
def officeLA : Candidate :=
  fun p => if p = "office" then some (.str "LA") else none

/-- A candidate with no attributes at all. -/
def emptyCand : Candidate := fun _ => none

/-- A concrete candidate whose `groups` attribute is the list `[staff]`. -/
def groupsCand : Candidate :=
  fun p => if p = "groups" then some (.list [.str "staff"]) else none

end Filters

namespace AD

/-- Modelled from the spec: the `constants` module of the repository is not under
src/; the spec calls `C._AND` the bitwise-AND matching-rule
identifier used by the disabled-flag leaf. -/
def C.AND : String := "1.2.840.113556.1.4.803"

/-- Modelled from the spec: `C.ACCOUNTDISABLE`, the configured bit value of
the account-disabled flag tested by the disabled-flag leaf. -/
def C.ACCOUNTDISABLE : String := "2"

/-- Modelled from the spec: `C._CHAIN`, the in-chain (transitive membership)
matching-rule OID used by the transitive membership leaf. -/
def C.CHAIN : String := "1.2.840.113556.1.4.1941"

/-- The string `IsDisabled.emit` produces (src/ad_filters.py, lines 36-40). -/
def isDisabledEmit : String :=
  "(userAccountControl:" ++ C.AND ++ ":=" ++ C.ACCOUNTDISABLE ++ ")"

/-- The LDAP filter algebra of src/ad_filters.py: leaves (`IsDisabled`,
`IsActive`, `Check`, `DescendantOf`, `ChildOf`) and composites
(`And`, `Or`, `Not`). -/
inductive AdFilter where
  | isDisabled : AdFilter
  | isActive : AdFilter
  | check : String → String → String → AdFilter
  | descendantOf : String → AdFilter
  | childOf : String → AdFilter
  | and : List AdFilter → AdFilter
  | or : List AdFilter → AdFilter
  | not : AdFilter → AdFilter

/-- `Composite.concat` (src/ad_filters.py, lines 110-115) applied to an
already-joined train of child strings: wrap in parentheses after the
operator tag. -/
def concat (op train : String) : String :=
  "(" ++ op ++ train ++ ")"

mutual
/-- `emit` for every filter kind.  `IsActive.emit` is literally
`Not(IsDisabled()).emit()`; `Not.emit` joins its single-element child list,
which is the string of that child. -/
def AdFilter.emit : AdFilter → String
  | .isDisabled => isDisabledEmit
  | .isActive => concat "!" isDisabledEmit
  | .check name value op => "(" ++ name ++ op ++ value ++ ")"
  | .descendantOf parent =>
    "(memberOf:" ++ C.CHAIN ++ ":=CN=" ++ parent ++ ",cn=Users,dc=psyop,dc=tv)"
  | .childOf parent =>
    "(memberOf=CN=" ++ parent ++ ",CN=Users,DC=psyop,DC=tv)"
  | .and fs => concat "&" (AdFilter.emitJoin fs)
  | .or fs => concat "|" (AdFilter.emitJoin fs)
  | .not f => concat "!" (AdFilter.emit f)

/-- The join of `[f.emit() for f in self.filters]` over the empty string: the child strings
concatenated in child order. -/
def AdFilter.emitJoin : List AdFilter → String
  | [] => ""
  | f :: rest => AdFilter.emit f ++ AdFilter.emitJoin rest
end

/-- The joined train of child strings is the in-order concatenation of the
individual `emit` strings of the children. -/
theorem AdFilter.emitJoin_eq (fs : List AdFilter) :
    AdFilter.emitJoin fs = (fs.map AdFilter.emit).foldr (fun a b => a ++ b) "" := by
  induction fs with
  | nil => rfl
  | cons f rest ih => simp [AdFilter.emitJoin, ih]

end AD

namespace Claims

open Filters AD

/-- A name outside the fixed comparator table resolves to no comparator. -/
theorem getComparator_eq_none (name : String)
    (h : name ∉ (["in", "has", "is", "ge", "gt", "le", "lt", "ne"] : List String)) :
    getComparator name = none := by
  simp only [List.mem_cons, List.not_mem_nil, or_false] at h
  push_neg at h
  obtain ⟨h1, h2, h3, h4, h5, h6, h7, h8⟩ := h
  simp [getComparator, h1, h2, h3, h4, h5, h6, h7, h8]

/-- With no comparator, the lower-cased stage fails (calling `None`). -/
theorem lowerStage_none (att v : Value) : lowerStage none att v = none := by
  cases hA : Value.lower att <;> cases hV : Value.lower v <;>
    simp [lowerStage, hA, hV, applyCmp]

/-- With no comparator but an existing attribute, `Check.test` falls all
the way through to `False` without raising. -/
theorem test_comparator_none (chk : Check) (cand : Candidate) (att : Value)
    (hc : chk.comparator = none) (ha : cand chk.property = some att) :
    chk.test cand = some false := by
  simp [Check.test, ha, hc, lowerStage_none, applyCmp]

/-- The conjunction loop yields `true` exactly when the test of every child
yields `true`. -/
theorem testAnd_true_iff (fs : List GFilter) (c : Candidate) :
    GFilter.testAnd fs c = some true ↔ ∀ f ∈ fs, GFilter.test f c = some true := by
  induction fs with
  | nil => simp [GFilter.testAnd]
  | cons f rest ih =>
    cases h : GFilter.test f c with
    | none => simp [GFilter.testAnd, h]
    | some b =>
      cases b with
      | false => simp [GFilter.testAnd, h]
      | true => simp [GFilter.testAnd, h, ih]

/-- After a passing prefix, the conjunction loop stops at a failing child:
it returns `false` having visited exactly the prefix and that child,
whatever follows. -/
theorem testAnd_stops (pre : List GFilter) (f : GFilter) (suf : List GFilter)
    (c : Candidate) (hpre : ∀ g ∈ pre, GFilter.test g c = some true)
    (hf : GFilter.test f c = some false) :
    GFilter.testAnd (pre ++ f :: suf) c = some false ∧
    andEvalCount (pre ++ f :: suf) c = pre.length + 1 := by
  induction pre with
  | nil => simp [GFilter.testAnd, andEvalCount, hf]
  | cons g rest ih =>
    have hg : GFilter.test g c = some true := hpre g (by simp)
    have hrest : ∀ x ∈ rest, GFilter.test x c = some true :=
      fun x hx => hpre x (by simp [hx])
    have ihr := ih hrest
    constructor
    · simpa [GFilter.testAnd, hg] using ihr.1
    · simp [andEvalCount, hg, ihr.2]
      omega

/-- The disjunction loop yields `false` when the test of every child yields
`false`. -/
theorem testOr_all_false (fs : List GFilter) (c : Candidate)
    (h : ∀ f ∈ fs, GFilter.test f c = some false) :
    GFilter.testOr fs c = some false := by
  induction fs with
  | nil => simp [GFilter.testOr]
  | cons f rest ih =>
    have hf : GFilter.test f c = some false := h f (by simp)
    have hrest : ∀ x ∈ rest, GFilter.test x c = some false :=
      fun x hx => h x (by simp [hx])
    simp [GFilter.testOr, hf, ih hrest]

/-- After a failing prefix, the disjunction loop stops at a passing child:
it returns `true` having visited exactly the prefix and that child,
whatever follows. -/
theorem testOr_stops (pre : List GFilter) (f : GFilter) (suf : List GFilter)
    (c : Candidate) (hpre : ∀ g ∈ pre, GFilter.test g c = some false)
    (hf : GFilter.test f c = some true) :
    GFilter.testOr (pre ++ f :: suf) c = some true ∧
    orEvalCount (pre ++ f :: suf) c = pre.length + 1 := by
  induction pre with
  | nil => simp [GFilter.testOr, orEvalCount, hf]
  | cons g rest ih =>
    have hg : GFilter.test g c = some false := hpre g (by simp)
    have hrest : ∀ x ∈ rest, GFilter.test x c = some false :=
      fun x hx => hpre x (by simp [hx])
    have ihr := ih hrest
    constructor
    · simpa [GFilter.testOr, hg] using ihr.1
    · simp [orEvalCount, hg, ihr.2]
      omega

/-- Claim C4: for a non-empty child list, `And(children).test` is `true`
iff the test of every child is `true`; and with a passing prefix followed by a
failing child, the loop returns `false` having invoked exactly the tests
of the prefix and of that child — nothing after the first failing child
is evaluated. -/
theorem claim_C4 :
    (∀ (fs : List GFilter) (c : Candidate), fs ≠ [] →
      (GFilter.test (GFilter.and fs) c = some true ↔
        ∀ f ∈ fs, GFilter.test f c = some true)) ∧
    (∀ (pre : List GFilter) (f : GFilter) (suf : List GFilter) (c : Candidate),
      (∀ g ∈ pre, GFilter.test g c = some true) →
      GFilter.test f c = some false →
      GFilter.test (GFilter.and (pre ++ f :: suf)) c = some false ∧
      andEvalCount (pre ++ f :: suf) c = pre.length + 1) := by
  constructor
  · intro fs c _
    show GFilter.testAnd fs c = some true ↔ _
    exact testAnd_true_iff fs c
  · intro pre f suf c hpre hf
    exact testAnd_stops pre f suf c hpre hf

/-- Claim C4, witness at a concrete tree: the conjunction of a passing and
a failing constant child tests `false`, and only the two children up to
the first failing one are visited. -/
theorem claim_C4_witness :
    GFilter.test (GFilter.and ([GFilter.echoMatch true] ++
      GFilter.echoMatch false :: [GFilter.lam (fun _ => true)])) emptyCand = some false ∧
    andEvalCount ([GFilter.echoMatch true] ++
      GFilter.echoMatch false :: [GFilter.lam (fun _ => true)]) emptyCand =
      [GFilter.echoMatch true].length + 1 :=
  claim_C4.2 [GFilter.echoMatch true] (GFilter.echoMatch false)
    [GFilter.lam (fun _ => true)] emptyCand (by simp [GFilter.test]) (by simp [GFilter.test])

/-- Claim C5: for a non-empty child list, `Or(children).test` returns
`true` at the first passing child having invoked exactly the tests of the
failing prefix and of that child (nothing later is evaluated), and returns
`false` when no child passes. -/
theorem claim_C5 :
    (∀ (pre : List GFilter) (f : GFilter) (suf : List GFilter) (c : Candidate),
      (∀ g ∈ pre, GFilter.test g c = some false) →
      GFilter.test f c = some true →
      GFilter.test (GFilter.or (pre ++ f :: suf)) c = some true ∧
      orEvalCount (pre ++ f :: suf) c = pre.length + 1) ∧
    (∀ (fs : List GFilter) (c : Candidate), fs ≠ [] →
      (∀ f ∈ fs, GFilter.test f c = some false) →
      GFilter.test (GFilter.or fs) c = some false) := by
  constructor
  · intro pre f suf c hpre hf
    exact testOr_stops pre f suf c hpre hf
  · intro fs c _ h
    exact testOr_all_false fs c h

/-- Claim C5, witness at a concrete tree: the disjunction of a failing and
a passing constant child tests `true`, and only the two children up to the
first passing one are visited. -/
theorem claim_C5_witness :
    GFilter.test (GFilter.or ([GFilter.echoMatch false] ++
      GFilter.echoMatch true :: [GFilter.lam (fun _ => false)])) emptyCand = some true ∧
    orEvalCount ([GFilter.echoMatch false] ++
      GFilter.echoMatch true :: [GFilter.lam (fun _ => false)]) emptyCand =
      [GFilter.echoMatch false].length + 1 :=
  claim_C5.1 [GFilter.echoMatch false] (GFilter.echoMatch true)
    [GFilter.lam (fun _ => false)] emptyCand (by simp [GFilter.test]) (by simp [GFilter.test])

/-- Claim C6: `IsActive().emit()` is byte-identical to
`Not(IsDisabled()).emit()` — `IsActive` has no independent leaf rendering. -/
theorem claim_C6 :
    AdFilter.emit AdFilter.isActive = AdFilter.emit (AdFilter.not AdFilter.isDisabled) := rfl

/-- Claim C7: for every filter `x`, `Not(Not(x)).emit()` renders as
`(!(!` ++ `x.emit()` ++ `))`, which is never equal to `x.emit()` — double
negation is not collapsed at the string level. -/
theorem claim_C7 (x : AdFilter) :
    AdFilter.emit (AdFilter.not (AdFilter.not x)) = "(!(!" ++ AdFilter.emit x ++ "))" ∧
    AdFilter.emit (AdFilter.not (AdFilter.not x)) ≠ AdFilter.emit x := by
  have hrender : AdFilter.emit (AdFilter.not (AdFilter.not x)) =
      "(!(!" ++ AdFilter.emit x ++ "))" := by
    show concat "!" (concat "!" (AdFilter.emit x)) = _
    apply String.ext
    simp [concat, String.data_append]
  refine ⟨hrender, ?_⟩
  rw [hrender]
  intro h
  have hl := congrArg String.length h
  rw [String.length_append, String.length_append] at hl
  have h4 : ("(!(!" : String).length = 4 := rfl
  have h2 : ("))" : String).length = 2 := rfl
  rw [h4, h2] at hl
  omega

/-- Claim C8: `And(children).emit()` is `(&` ++ the child emit strings
concatenated in child order ++ `)`; `Or` the same with `|`; `Not(x).emit()`
is `(!` ++ `x.emit()` ++ `)`.  No reordering or deduplication occurs. -/
theorem claim_C8 :
    (∀ fs : List AdFilter, AdFilter.emit (AdFilter.and fs) =
      "(&" ++ (fs.map AdFilter.emit).foldr (fun a b => a ++ b) "" ++ ")") ∧
    (∀ fs : List AdFilter, AdFilter.emit (AdFilter.or fs) =
      "(|" ++ (fs.map AdFilter.emit).foldr (fun a b => a ++ b) "" ++ ")") ∧
    (∀ x : AdFilter, AdFilter.emit (AdFilter.not x) = "(!" ++ AdFilter.emit x ++ ")") := by
  refine ⟨?_, ?_, ?_⟩
  case _ =>
    intro fs
    show concat "&" (AdFilter.emitJoin fs) = _
    rw [AdFilter.emitJoin_eq]
    apply String.ext
    simp [concat, String.data_append]
  case _ =>
    intro fs
    show concat "|" (AdFilter.emitJoin fs) = _
    rw [AdFilter.emitJoin_eq]
    apply String.ext
    simp [concat, String.data_append]
  case _ =>
    intro x
    show concat "!" (AdFilter.emit x) = _
    apply String.ext
    simp [concat, String.data_append]

/-- Claim C9: a conjunction with zero children tests `true` and a
disjunction with zero children tests `false`, for every candidate; both
zero-child constructions are legal values of the algebra. -/
theorem claim_C9 (c : Candidate) :
    GFilter.test (GFilter.and []) c = some true ∧
    GFilter.test (GFilter.or []) c = some false := by
  constructor
  · simp [GFilter.test, GFilter.testAnd]
  · simp [GFilter.test, GFilter.testOr]

/-- Claim C2, counterexample: at group name `G` there is no common remainder
`r` such that the transitive leaf emits the match-rule insertion
`:OID:` followed by `r` while the direct leaf emits `r` directly after
`(memberOf` — i.e. the two strings do NOT differ only in the match-rule
suffix (the naming contexts differ in letter case:
`,cn=Users,dc=psyop,dc=tv)` versus `,CN=Users,DC=psyop,DC=tv)`). -/
theorem claim_C2_counterexample :
    ¬ ∃ r : String,
      AdFilter.emit (AdFilter.descendantOf "G") = "(memberOf:" ++ C.CHAIN ++ ":" ++ r ∧
      AdFilter.emit (AdFilter.childOf "G") = "(memberOf" ++ r := by
  rintro ⟨r, h1, h2⟩
  have hsplit : AdFilter.emit (AdFilter.descendantOf "G") =
      "(memberOf:" ++ C.CHAIN ++ ":" ++ "=CN=G,cn=Users,dc=psyop,dc=tv)" := by
    apply String.ext
    simp [AdFilter.emit, C.CHAIN, String.data_append]
  have hr : r = "=CN=G,cn=Users,dc=psyop,dc=tv)" := by
    have h := hsplit.symm.trans h1
    have hd := congrArg String.data h
    simp only [String.data_append] at hd
    apply String.ext
    exact (List.append_cancel_left hd).symm
  rw [hr] at h2
  have hd2 := congrArg String.data h2
  simp [AdFilter.emit, String.data_append] at hd2

/-- Claim C2, amended: both membership leaves start with `(memberOf`, the
transitive one inserting the in-chain match-rule `:OID:` there; after the
common `=CN=<name>,` segment the two reference the same organizational
naming context only up to ASCII letter case — the transitive form uses
`cn=Users,dc=psyop,dc=tv)` and the direct form `CN=Users,DC=psyop,DC=tv)`. -/
theorem claim_C2_amended (g : String) :
    AdFilter.emit (AdFilter.descendantOf g) =
      "(memberOf:" ++ C.CHAIN ++ ":" ++ ("=CN=" ++ g ++ ",") ++ "cn=Users,dc=psyop,dc=tv)" ∧
    AdFilter.emit (AdFilter.childOf g) =
      "(memberOf" ++ ("=CN=" ++ g ++ ",") ++ "CN=Users,DC=psyop,DC=tv)" ∧
    Filters.strLower "cn=Users,dc=psyop,dc=tv)" = Filters.strLower "CN=Users,DC=psyop,DC=tv)" := by
  refine ⟨?_, ?_, by decide⟩
  · apply String.ext
    simp [AdFilter.emit, String.data_append]
  · apply String.ext
    simp [AdFilter.emit, String.data_append]

/-- Claim C1, counterexample: constructing a `Check` of property office, operator name eq, value la
with the out-of-table operator name `eq` raises nothing — it yields a
`Check` whose comparator is absent, and evaluating it on a candidate that
has the property returns `false`; nothing failed at construction time. -/
theorem claim_C1_counterexample :
    (Check.init "office" "eq" (Value.str "la")).comparator = none ∧
    (Check.init "office" "eq" (Value.str "la")).test officeLA = some false :=
  ⟨rfl, rfl⟩

/-- Claim C1, amended: constructing a `Check` with an operator name outside
the fixed comparator table succeeds with an absent comparator (no
configuration error is raised), and the failure surfaces only at
evaluation time, where `test` returns `false` on every candidate that has
the named property. -/
theorem claim_C1_amended (p name : String) (v : Value) (cand : Candidate) (att : Value)
    (hname : name ∉ (["in", "has", "is", "ge", "gt", "le", "lt", "ne"] : List String))
    (ha : cand p = some att) :
    (Check.init p name v).comparator = none ∧
    (Check.init p name v).test cand = some false := by
  have hc : (Check.init p name v).comparator = none := getComparator_eq_none name hname
  exact ⟨hc, test_comparator_none (Check.init p name v) cand att hc ha⟩

/-- Claim C1, witness: the amended claim at the concrete operator name
`like`, with a candidate whose `office` attribute exists. -/
theorem claim_C1_witness :
    (Check.init "office" "like" (Value.str "la")).comparator = none ∧
    (Check.init "office" "like" (Value.str "la")).test officeLA = some false :=
  claim_C1_amended "office" "like" (Value.str "la") officeLA (Value.str "LA")
    (by decide) rfl

/-- Claim C3: when the named property exists on the candidate,
`Check.test` (1) returns the comparator answer on the lower-cased
operands when that application succeeds, (2) otherwise returns the
comparator answer on the raw operands when that succeeds, (3) otherwise
returns `false`; it always returns a boolean (no exception propagates).
In particular the leaf of property office, operator is, value la tests `true` on a candidate
whose office is `LA`. -/
theorem claim_C3 :
    (∀ (chk : Check) (cand : Candidate) (att : Value), cand chk.property = some att →
      (∃ b, chk.test cand = some b) ∧
      (∀ b, lowerStage chk.comparator att chk.value = some b → chk.test cand = some b) ∧
      (lowerStage chk.comparator att chk.value = none →
        ∀ b, applyCmp chk.comparator att chk.value = some b → chk.test cand = some b) ∧
      (lowerStage chk.comparator att chk.value = none →
        applyCmp chk.comparator att chk.value = none → chk.test cand = some false)) ∧
    (Check.init "office" "is" (Value.str "la")).test officeLA = some true := by
  constructor
  · intro chk cand att ha
    refine ⟨?_, ?_, ?_, ?_⟩
    · cases hL : lowerStage chk.comparator att chk.value with
      | some b => exact ⟨b, by simp [Check.test, ha, hL]⟩
      | none =>
        cases hR : applyCmp chk.comparator att chk.value with
        | some b => exact ⟨b, by simp [Check.test, ha, hL, hR]⟩
        | none => exact ⟨false, by simp [Check.test, ha, hL, hR]⟩
    · intro b hL
      simp [Check.test, ha, hL]
    · intro hL b hR
      simp [Check.test, ha, hL, hR]
    · intro hL hR
      simp [Check.test, ha, hL, hR]
  · rfl

/-- Claim C3, witness: the policy applied at the concrete leaf
`Check` leaf of property office, operator is, value la, and a candidate whose office is `LA` — the
lower-cased stage succeeds and yields `true`. -/
theorem claim_C3_witness :
    (Check.init "office" "is" (Value.str "la")).test officeLA = some true :=
  (claim_C3.1 (Check.init "office" "is" (Value.str "la")) officeLA
    (Value.str "LA") rfl).2.1 true rfl

/-- Claim C10: a `Check` built with an operator name outside the
comparator table is created successfully with an absent comparator, and on
every candidate that has the named property its `test` returns `false`
rather than raising. -/
theorem claim_C10 (p name : String) (v : Value) (cand : Candidate) (att : Value)
    (hname : name ∉ (["in", "has", "is", "ge", "gt", "le", "lt", "ne"] : List String))
    (ha : cand p = some att) :
    (Check.init p name v).comparator = none ∧
    (Check.init p name v).test cand = some false := by
  have hc : (Check.init p name v).comparator = none := getComparator_eq_none name hname
  exact ⟨hc, test_comparator_none (Check.init p name v) cand att hc ha⟩

/-- Claim C10, witness: the concrete out-of-table operator name `matches`
with a candidate whose `groups` attribute exists. -/
theorem claim_C10_witness :
    (Check.init "groups" "matches" (Value.str "staff")).comparator = none ∧
    (Check.init "groups" "matches" (Value.str "staff")).test groupsCand = some false :=
  claim_C10 "groups" "matches" (Value.str "staff") groupsCand
    (Value.list [Value.str "staff"]) (by decide) rfl

end Claims
